import Mathlib

/-!
# Verification of the Yandex marketplace exchange scripts

A shallow embedding of the repository's pipelines (prices, stocks,
confirmations, orders) together with theorems about their behaviour.

Spreadsheet tables are modelled as lists of rows; a row is an association
list from column names to cell values, a missing association playing the
role of pandas' NaN.  Python floats appearing in price arithmetic are
modelled as exact rationals; `math.ceil` is `Int.ceil`.  Fallible Python
code (raised exceptions) is modelled with `Except`/`Option` results.
-/

namespace YandexExchange

/-- A spreadsheet cell value: an integer or a text value.  pandas cells of
other dtypes do not occur in the columns the pipelines touch. -/
inductive CellVal where
  | intv (n : Int)
  | strv (s : String)
deriving DecidableEq, Repr

/-- Python `int(x)` on a cell value: integers pass through, text is parsed
as a decimal integer, anything else raises (here: `none`). -/
def CellVal.toIntOpt : CellVal → Option Int
  | .intv n => some n
  | .strv s => s.toInt?

/-- Python `str(x)` / pandas `astype(str)` on a cell value. -/
def CellVal.toText : CellVal → String
  | .intv n => toString n
  | .strv s => s

/-- A table row: column name to value.  A column with no entry models NaN. -/
abbrev Row := List (String × CellVal)

/-- Cell lookup, `row[col]`; `none` models NaN / a missing cell. -/
def getCell (r : Row) (c : String) : Option CellVal :=
  (r.find? (fun p => p.1 = c)).map (fun p => p.2)

/-- A pandas DataFrame: a list of column names and a list of rows. -/
structure DataFrame where
  cols : List String
  rows : List Row
deriving DecidableEq, Repr

/-! ## Price pipeline (`prices.py`) -/

namespace Prices

/-- One row of the products spreadsheet (`'Артикул'`, `'Price'`, `'Mark'`),
given that the required columns are present and numeric where expected. -/
structure ProductRow where
  artikul : String
  price : ℚ
  mark : String
deriving DecidableEq, Repr

/-- One row of the markup spreadsheet (`'Mark'`, `'MarkUP'`). -/
structure MarkupRow where
  mark : String
  markUP : ℚ
deriving DecidableEq, Repr

/-- One element of the offers list built by `prepare_offers_data`. -/
structure PriceOffer where
  offerId : String
  price : Int
  discountBase : Int
deriving DecidableEq, Repr

/-- pandas `df_products.merge(df_markups, on="Mark", how="left")`: every
product row is paired with each markup row of equal `Mark` (in markup-file
order), or with `none` (NaN) when no markup row matches. -/
def mergeLeft (ps : List ProductRow) (ms : List MarkupRow) : List (ProductRow × Option ℚ) :=
  ps.flatMap (fun p =>
    match ms.filter (fun m => m.mark = p.mark) with
    | [] => [(p, none)]
    | l => l.map (fun m => (p, some m.markUP)))

/-- `prepare_offers_data(file_products, file_markup)` of `prices.py`,
after the two spreadsheets have been loaded and the required columns
checked: merges on `Mark`, fills missing `MarkUP` with 1.8, computes
`NewPrice = Price * MarkUP`, looks up the markup row whose `Mark` is the
literal `"YANDEX_old_price"` (the `.values[0]` access raises `IndexError`
when no such row exists), sets `DiscountPrice = NewPrice * markup_yandex`,
and emits one offer per merged row with `math.ceil`-rounded prices. -/
def prepareOffersData (ps : List ProductRow) (ms : List MarkupRow) :
    Except String (List PriceOffer) :=
  match (ms.filter (fun m => m.mark = "YANDEX_old_price")).head? with
  | none => .error "IndexError: no markup row with Mark = YANDEX_old_price"
  | some my =>
    .ok ((mergeLeft ps ms).map (fun pm =>
      let mu := pm.2.getD (1.8 : ℚ)
      let newPrice := pm.1.price * mu
      { offerId := pm.1.artikul
        price := ⌈newPrice⌉
        discountBase := ⌈newPrice * my.markUP⌉ }))

/-- The markup a product row receives after the left join and
`fillna(1.8)`: the first matching markup row's value, or 1.8. -/
def markupFor (ms : List MarkupRow) (p : ProductRow) : ℚ :=
  ((ms.find? (fun m => m.mark = p.mark)).map (fun m => m.markUP)).getD (1.8 : ℚ)

/-- The offer record the spec ascribes to a product row. -/
def offerFor (my : ℚ) (ms : List MarkupRow) (p : ProductRow) : PriceOffer :=
  { offerId := p.artikul
    price := ⌈p.price * markupFor ms p⌉
    discountBase := ⌈p.price * markupFor ms p * my⌉ }

end Prices

end YandexExchange


namespace YandexExchange

/-- A `flatMap` whose function yields singletons is a `map`. -/
lemma flatMap_singleton_eq_map {α β : Type} (l : List α) (f : α → List β) (g : α → β)
    (h : ∀ a, f a = [g a]) : l.flatMap f = l.map g := by
  induction l with
  | nil => rfl
  | cons a l ih => simp [List.flatMap_cons, h a, ih]

namespace Prices

lemma filter_mark_eq_nil {x : String} {ms : List MarkupRow}
    (h : ∀ m ∈ ms, m.mark ≠ x) : ms.filter (fun m => m.mark = x) = [] := by
  simp only [List.filter_eq_nil_iff, decide_eq_true_eq]
  exact h

lemma filter_mark_of_find {x : String} : ∀ {ms : List MarkupRow},
    (ms.map (fun m => m.mark)).Nodup →
    ∀ {my}, ms.find? (fun m => m.mark = x) = some my →
    ms.filter (fun m => m.mark = x) = [my] := by
  intro ms
  induction ms with
  | nil => intro _ my h; cases h
  | cons m rest ih =>
    intro hnd my hfind
    simp only [List.map_cons, List.nodup_cons, List.mem_map] at hnd
    by_cases hm : m.mark = x
    · rw [List.find?_cons_of_pos _ (by simpa using hm)] at hfind
      cases hfind
      rw [List.filter_cons_of_pos (by simpa using hm)]
      have : rest.filter (fun r => r.mark = x) = [] := by
        apply filter_mark_eq_nil
        intro r hr hrx
        exact hnd.1 ⟨r, hr, by rw [hrx, hm]⟩
      rw [this]
    · rw [List.find?_cons_of_neg _ (by simpa using hm)] at hfind
      rw [List.filter_cons_of_neg (by simpa using hm)]
      exact ih hnd.2 hfind

/-- Under unique marks in the markup table, the left join pairs each
product row with the first (only) matching markup value. -/
lemma mergeLeft_eq_map (ps : List ProductRow) {ms : List MarkupRow}
    (hnd : (ms.map (fun m => m.mark)).Nodup) :
    mergeLeft ps ms =
      ps.map (fun p => (p, (ms.find? (fun m => m.mark = p.mark)).map (fun m => m.markUP))) := by
  apply flatMap_singleton_eq_map
  intro p
  cases hf : ms.find? (fun m => m.mark = p.mark) with
  | none =>
    have hfil : ms.filter (fun m => m.mark = p.mark) = [] := by
      apply filter_mark_eq_nil
      intro m hm
      have := List.find?_eq_none.mp hf m hm
      simpa using this
    rw [hfil]
    rfl
  | some m =>
    have hfil : ms.filter (fun m => m.mark = p.mark) = [m] := filter_mark_of_find hnd hf
    rw [hfil]
    rfl

lemma prepareOffersData_error {ps : List ProductRow} {ms : List MarkupRow}
    (h : ∀ m ∈ ms, m.mark ≠ "YANDEX_old_price") :
    prepareOffersData ps ms =
      .error "IndexError: no markup row with Mark = YANDEX_old_price" := by
  unfold prepareOffersData
  rw [filter_mark_eq_nil h]
  rfl

lemma prepareOffersData_ok {ps : List ProductRow} {ms : List MarkupRow} {my : MarkupRow}
    (hnd : (ms.map (fun m => m.mark)).Nodup)
    (hfind : ms.find? (fun m => m.mark = "YANDEX_old_price") = some my) :
    prepareOffersData ps ms = .ok (ps.map (offerFor my.markUP ms)) := by
  have hstep : prepareOffersData ps ms =
      .ok ((mergeLeft ps ms).map (fun pm =>
        let mu := pm.2.getD (1.8 : ℚ)
        let newPrice := pm.1.price * mu
        ({ offerId := pm.1.artikul
           price := ⌈newPrice⌉
           discountBase := ⌈newPrice * my.markUP⌉ } : PriceOffer))) := by
    unfold prepareOffersData
    rw [filter_mark_of_find hnd hfind]
    rfl
  rw [hstep]
  congr 1
  rw [mergeLeft_eq_map ps hnd, List.map_map]
  apply List.map_congr_left
  intro p _
  simp only [Function.comp, offerFor, markupFor]

/-- C1: for every products spreadsheet and markups spreadsheet containing
their required columns, `prepare_offers_data` of the price pipeline
left-joins products to markups on `Mark` (unique markup marks), substitutes
1.8 for every missing `MarkUP`, and produces for each product row an offer
with `price = ceil(Price * MarkUP)` and
`discountBase = ceil(Price * MarkUP * markup_yandex)`, `markup_yandex`
being the `MarkUP` of the row whose `Mark` is `"YANDEX_old_price"`; when no
such row exists the operation fails (NotFound).  The concrete instance
`Price=100, Mark="A"` with markups `("A", 2.0)` and
`("YANDEX_old_price", 0.9)` yields price 200 and discountBase 180. -/
theorem C1_prices_prepare_offers_data (ps : List ProductRow) (ms : List MarkupRow)
    (my : MarkupRow) :
    ((∀ m ∈ ms, m.mark ≠ "YANDEX_old_price") →
      prepareOffersData ps ms =
        .error "IndexError: no markup row with Mark = YANDEX_old_price")
    ∧ ((ms.map (fun m => m.mark)).Nodup →
      ms.find? (fun m => m.mark = "YANDEX_old_price") = some my →
      prepareOffersData ps ms = .ok (ps.map (offerFor my.markUP ms)))
    ∧ prepareOffersData [⟨"X", 100, "A"⟩] [⟨"A", 2⟩, ⟨"YANDEX_old_price", (9:ℚ)/10⟩]
        = .ok [⟨"X", 200, 180⟩] :=
  ⟨fun h => prepareOffersData_error h,
   fun hnd hfind => prepareOffersData_ok hnd hfind,
   by
    simp only [prepareOffersData, mergeLeft]
    simp +decide only [List.filter, List.flatMap, List.head?, Option.getD, List.map]
    norm_num [Int.ceil_eq_iff]⟩

/-- Concrete instantiation of the C1 theorem at a one-product, two-markup
input, discharging the uniqueness and lookup hypotheses by computation. -/
theorem C1_prices_prepare_offers_data_witness :
    prepareOffersData [⟨"X", 100, "A"⟩] [⟨"A", 2⟩, ⟨"YANDEX_old_price", (9:ℚ)/10⟩]
      = .ok (([⟨"X", 100, "A"⟩] : List ProductRow).map
          (offerFor ((9:ℚ)/10) [⟨"A", 2⟩, ⟨"YANDEX_old_price", (9:ℚ)/10⟩])) :=
  (C1_prices_prepare_offers_data [⟨"X", 100, "A"⟩]
      [⟨"A", 2⟩, ⟨"YANDEX_old_price", (9:ℚ)/10⟩]
      ⟨"YANDEX_old_price", (9:ℚ)/10⟩).2.1
    (by decide) (by rfl)

end Prices

end YandexExchange

namespace YandexExchange

/-- The batch slices `offers[i:i+batch_size]` taken at
`i = 0, batch_size, 2*batch_size, ...`, i.e. at the indices produced by
Python `range(0, len(offers), batch_size)` (which has `ceil(len/step)`
elements for a positive step; a zero step raises in Python and yields no
batches here, unreachable from the pipelines which always pass 300). -/
def chunksOf {α : Type} (bs : ℕ) (l : List α) : List (List α) :=
  (List.range ((l.length + bs - 1) / bs)).map (fun k => (l.drop (k * bs)).take bs)

lemma chunksOf_nil {α : Type} (bs : ℕ) : chunksOf bs ([] : List α) = [] := by
  unfold chunksOf
  have h : (List.length ([] : List α) + bs - 1) / bs = 0 := by
    cases bs with
    | zero => simp
    | succ b => exact Nat.div_eq_of_lt (by simp only [List.length_nil]; omega)
  rw [h]
  rfl

lemma chunksOf_count_drop {α : Type} {bs : ℕ} (hbs : 0 < bs) (l : List α)
    (hl : l ≠ []) :
    ((l.drop bs).length + bs - 1) / bs = (l.length - 1) / bs := by
  have hlen : 0 < l.length := List.length_pos.mpr hl
  rw [List.length_drop]
  rcases le_or_lt bs l.length with h | h
  · congr 1
    omega
  · have h1 : l.length - bs = 0 := by omega
    rw [h1, Nat.div_eq_of_lt (by omega), Nat.div_eq_of_lt (by omega)]

/-- Splitting into batches and concatenating them back recovers the
original list: the batches partition the offers in order. -/
lemma chunksOf_flatten {α : Type} {bs : ℕ} (hbs : 0 < bs) :
    ∀ l : List α, (chunksOf bs l).flatten = l := by
  suffices H : ∀ (n : ℕ) (l : List α), l.length = n → (chunksOf bs l).flatten = l by
    intro l; exact H l.length l rfl
  intro n
  induction n using Nat.strong_induction_on with
  | _ n ih =>
    intro l hl
    cases l with
    | nil => simp [chunksOf_nil]
    | cons a t =>
      have hlen : 0 < (a :: t).length := by simp
      have hcount : ((a :: t).length + bs - 1) / bs = ((a :: t).length - 1) / bs + 1 := by
        have h1 : (a :: t).length + bs - 1 = ((a :: t).length - 1) + bs := by omega
        rw [h1, Nat.add_div_right _ hbs]
      unfold chunksOf
      rw [hcount, List.range_succ_eq_map]
      simp only [List.map_cons, List.flatten_cons, Nat.zero_mul, List.drop_zero,
        List.map_map]
      have hmap : (List.range (((a :: t).length - 1) / bs)).map
            ((fun k => (List.drop (k * bs) (a :: t)).take bs) ∘ Nat.succ)
          = chunksOf bs ((a :: t).drop bs) := by
        unfold chunksOf
        rw [chunksOf_count_drop hbs _ (by simp)]
        apply List.map_congr_left
        intro k _
        simp only [Function.comp_apply, List.drop_drop]
        congr 1
        rw [Nat.succ_mul, Nat.add_comm]
      rw [hmap, ih ((a :: t).drop bs).length (by simp only [List.length_drop]; simp only [List.length_cons] at hl ⊢; omega) _ rfl]
      exact List.take_append_drop bs (a :: t)

/-- Every batch contains at most `bs` elements. -/
lemma chunksOf_le {α : Type} (bs : ℕ) (l : List α) :
    ∀ c ∈ chunksOf bs l, c.length ≤ bs := by
  intro c hc
  simp only [chunksOf, List.mem_map] at hc
  obtain ⟨k, -, rfl⟩ := hc
  simp [List.length_take]

/-- The batch sizes are determined by the length of the offer list. -/
lemma chunksOf_map_length {α : Type} (bs : ℕ) (l : List α) :
    (chunksOf bs l).map List.length =
      (List.range ((l.length + bs - 1) / bs)).map (fun k => min bs (l.length - k * bs)) := by
  simp [chunksOf, List.map_map, Function.comp, List.length_take, List.length_drop]

end YandexExchange

namespace YandexExchange

/-! ## Stock pipeline (`stocks.py`) -/

namespace Stocks

/-- One element of the offers list of `stocks.py`:
`{"offerId": str, "qua": int}`. -/
structure StockOffer where
  offerId : String
  qua : Int
deriving DecidableEq, Repr

/-- The quantity of one row after `fillna(0).astype(int)`: a missing cell
(NaN) becomes 0; a non-numeric text cell raises `ValueError` (`none`).
Only integer and text cells are modelled. -/
def quaOfRow (r : Row) : Option Int :=
  match getCell r "Количество" with
  | none => some 0
  | some v => v.toIntOpt

/-- The SKU of one row after `astype(str)` (pandas prints NaN as `"nan"`). -/
def skuOfRow (r : Row) : String :=
  match getCell r "Артикул" with
  | none => "nan"
  | some v => v.toText

/-- The row-by-row offer construction of `prepare_offers_data`. -/
def buildOffers : List Row → Except String (List StockOffer)
  | [] => .ok []
  | r :: rs =>
    match quaOfRow r with
    | none => .error "ValueError: cannot convert to int"
    | some q =>
      match buildOffers rs with
      | .error e => .error e
      | .ok rest => .ok (({ offerId := skuOfRow r, qua := q } : StockOffer) :: rest)

/-- `prepare_offers_data(file_products)` of `stocks.py` after the
spreadsheet is loaded: requires the columns `'Артикул'` and `'Количество'`
(raising `ValueError` otherwise), coerces the SKU column to text
(`astype(str)`), fills missing quantities with 0 and coerces to integer
(`astype(int)`), and emits one `{offerId, qua}` record per row in order. -/
def prepareOffersData (df : DataFrame) : Except String (List StockOffer) :=
  if "Артикул" ∈ df.cols ∧ "Количество" ∈ df.cols then
    buildOffers df.rows
  else .error "Файл не содержит нужных столбцов"

/-- A sku entry's single count item (`{"count": ...}`), the update
timestamp being left to the server default. -/
structure CountItem where
  count : Int
deriving DecidableEq, Repr

/-- One `skus` entry of the stock-update request shape. -/
structure SkuEntry where
  sku : String
  items : List CountItem
deriving DecidableEq, Repr

/-- One JSON batch for the stock-update endpoint. -/
structure StockBatch where
  skus : List SkuEntry
deriving DecidableEq, Repr

/-- `prepare_batches(offers, batch_size=300)` of `stocks.py`: slices the
offer list at `range(0, len(offers), batch_size)` indices and wraps each
slice into `{"skus": [{"sku": ..., "items": [{"count": ...}]}, ...]}`. -/
def prepareBatches (offers : List StockOffer) (batchSize : ℕ := 300) : List StockBatch :=
  (chunksOf batchSize offers).map (fun batch =>
    { skus := batch.map (fun o =>
        ({ sku := o.offerId, items := [{ count := o.qua }] } : SkuEntry)) })

/-- The `FakeResponse` stand-in of `stocks.py` / `prices.py`: status 200,
body `{"message": "Тестовый ответ"}`, headers `{"Retry-After": 7}`. -/
structure FakeResponse where
  statusCode : ℕ
  json : List (String × String)
  text : String
  retryAfter : ℕ
deriving DecidableEq, Repr

/-- `FakeResponse()` with the default constructor arguments. -/
def fakeResponse : FakeResponse :=
  { statusCode := 200
    json := [("message", "Тестовый ответ")]
    text := "Тестовый ответ"
    retryAfter := 7 }

/-- `send_request_with_retries(url, headers, body, max_attempts=3)` of
`stocks.py`.  The real `requests.put` call is commented out in the source
and every attempt obtains `FakeResponse()` instead; the retry branches for
5xx, 429 and other statuses are kept as in the source.  The argument of
the recursion is the number of attempts still allowed. -/
def sendRequestWithRetries {B : Type} (url : String)
    (headers : List (String × String)) (body : B) :
    ℕ → Option (List (String × String))
  | 0 => none
  | n + 1 =>
    let response := fakeResponse
    if response.statusCode = 200 then some response.json
    else if 500 ≤ response.statusCode ∧ response.statusCode < 600 then
      sendRequestWithRetries url headers body n
    else if response.statusCode = 429 then
      sendRequestWithRetries url headers body n
    else none

/-- `update_stocks(api_token, campaign_id, offers)` of `stocks.py`: sends
every batch through `send_request_with_retries` and collects the per-batch
results in order. -/
def updateStocks (apiToken : String) (campaignId : ℕ) (offers : List StockOffer) :
    List (Option (List (String × String))) :=
  let url := "https://api.partner.market.yandex.ru/campaigns/"
      ++ toString campaignId ++ "/offers/stocks"
  let headers := [("Api-Key", apiToken), ("Accept", "application/json"),
      ("X-Market-Integration", "OrderGuardTest")]
  (prepareBatches offers).map (fun batch => sendRequestWithRetries url headers batch 3)

end Stocks

end YandexExchange

namespace YandexExchange

namespace Prices

/-- The `price` object of one offer entry in the price-update request:
`{"value": ..., "currencyId": "RUR", "discountBase": ...}`. -/
structure PriceEntryValue where
  value : Int
  currencyId : String
  discountBase : Int
deriving DecidableEq, Repr

/-- One `offers` entry of the price-update request shape. -/
structure PriceEntry where
  offerId : String
  price : PriceEntryValue
deriving DecidableEq, Repr

/-- One JSON batch for the price-update endpoint. -/
structure PriceBatch where
  offers : List PriceEntry
deriving DecidableEq, Repr

/-- `prepare_batches(offers, batch_size=300)` of `prices.py`: slices the
offer list at `range(0, len(offers), batch_size)` indices and wraps each
slice into the price-update request shape. -/
def prepareBatches (offers : List PriceOffer) (batchSize : ℕ := 300) : List PriceBatch :=
  (chunksOf batchSize offers).map (fun batch =>
    { offers := batch.map (fun o =>
        ({ offerId := o.offerId
           price := { value := o.price, currencyId := "RUR", discountBase := o.discountBase } }
         : PriceEntry)) })

/-- `send_request_with_retries(url, headers, body, max_attempts=3)` of
`prices.py`; identical to the stocks variant (the commented-out live call
is a POST there and a PUT here).  Every attempt obtains `FakeResponse()`. -/
def sendRequestWithRetries {B : Type} (url : String)
    (headers : List (String × String)) (body : B) :
    ℕ → Option (List (String × String))
  | 0 => none
  | n + 1 =>
    let response := Stocks.fakeResponse
    if response.statusCode = 200 then some response.json
    else if 500 ≤ response.statusCode ∧ response.statusCode < 600 then
      sendRequestWithRetries url headers body n
    else if response.statusCode = 429 then
      sendRequestWithRetries url headers body n
    else none

/-- `update_prices(api_token, business_id, offers)` of `prices.py`. -/
def updatePrices (apiToken : String) (businessId : ℕ) (offers : List PriceOffer) :
    List (Option (List (String × String))) :=
  let url := "https://api.partner.market.yandex.ru/businesses/"
      ++ toString businessId ++ "/offer-prices/updates"
  let headers := [("Api-Key", apiToken), ("Accept", "application/json"),
      ("X-Market-Integration", "OrderGuardTest")]
  (prepareBatches offers).map (fun batch => sendRequestWithRetries url headers batch 3)

end Prices

end YandexExchange

namespace YandexExchange

/-- C2: in the stock and price pipelines `send_request_with_retries` never
performs a live network call: for every url, headers and body it obtains
the fixed stand-in response (status 200, body
`{"message": "Тестовый ответ"}`) and returns that fixed body on the first
attempt; consequently `update_stocks` and `update_prices` return one
successful (never absent) result per batch. -/
theorem C2_send_request_stubbed :
    (∀ (B : Type) (url : String) (headers : List (String × String)) (body : B) (n : ℕ),
        0 < n →
        Stocks.sendRequestWithRetries url headers body n = some Stocks.fakeResponse.json)
    ∧ (∀ (B : Type) (url : String) (headers : List (String × String)) (body : B) (n : ℕ),
        0 < n →
        Prices.sendRequestWithRetries url headers body n = some Stocks.fakeResponse.json)
    ∧ (∀ (apiToken : String) (campaignId : ℕ) (offers : List Stocks.StockOffer),
        Stocks.updateStocks apiToken campaignId offers =
          (Stocks.prepareBatches offers).map (fun _ => some Stocks.fakeResponse.json))
    ∧ (∀ (apiToken : String) (businessId : ℕ) (offers : List Prices.PriceOffer),
        Prices.updatePrices apiToken businessId offers =
          (Prices.prepareBatches offers).map (fun _ => some Stocks.fakeResponse.json)) := by
  have h1 : ∀ (B : Type) (url : String) (headers : List (String × String)) (body : B) (n : ℕ),
      0 < n →
      Stocks.sendRequestWithRetries url headers body n = some Stocks.fakeResponse.json := by
    intro B url headers body n hn
    match n, hn with
    | n + 1, _ => rfl
  have h2 : ∀ (B : Type) (url : String) (headers : List (String × String)) (body : B) (n : ℕ),
      0 < n →
      Prices.sendRequestWithRetries url headers body n = some Stocks.fakeResponse.json := by
    intro B url headers body n hn
    match n, hn with
    | n + 1, _ => rfl
  refine ⟨h1, h2, ?_, ?_⟩
  · intro apiToken campaignId offers
    unfold Stocks.updateStocks
    apply List.map_congr_left
    intro b _
    exact h1 _ _ _ _ 3 (by omega)
  · intro apiToken businessId offers
    unfold Prices.updatePrices
    apply List.map_congr_left
    intro b _
    exact h2 _ _ _ _ 3 (by omega)

/-- Concrete instantiation of the C2 theorem: a single attempt already
returns the stand-in body. -/
theorem C2_send_request_stubbed_witness :
    Stocks.sendRequestWithRetries "url" [] (0 : ℕ) 3 = some Stocks.fakeResponse.json :=
  C2_send_request_stubbed.1 ℕ "url" [] 0 3 (by omega)

end YandexExchange

namespace YandexExchange

/-- C9: `prepare_batches` splits the offer list into consecutive chunks of
at most `batch_size` offers preserving order (flattening the batches
recovers every offer, wrapped in the endpoint's request shape: for stocks
one `skus` entry per offer carrying a single count item, for prices one
`offers` entry with value, currencyId `"RUR"` and discountBase); 650
offers with batch size 300 produce exactly 3 batches of sizes 300, 300
and 50. -/
theorem C9_prepare_batches (bs : ℕ) (offers : List Stocks.StockOffer)
    (poffers : List Prices.PriceOffer) :
    (0 < bs →
      (Stocks.prepareBatches offers bs).flatMap (fun b => b.skus) =
        offers.map (fun o =>
          ({ sku := o.offerId, items := [{ count := o.qua }] } : Stocks.SkuEntry)))
    ∧ (∀ b ∈ Stocks.prepareBatches offers bs, b.skus.length ≤ bs)
    ∧ (offers.length = 650 →
        (Stocks.prepareBatches offers 300).map (fun b => b.skus.length) = [300, 300, 50])
    ∧ (0 < bs →
      (Prices.prepareBatches poffers bs).flatMap (fun b => b.offers) =
        poffers.map (fun o =>
          ({ offerId := o.offerId
             price := { value := o.price, currencyId := "RUR", discountBase := o.discountBase } }
           : Prices.PriceEntry)))
    ∧ (∀ b ∈ Prices.prepareBatches poffers bs, b.offers.length ≤ bs)
    ∧ (poffers.length = 650 →
        (Prices.prepareBatches poffers 300).map (fun b => b.offers.length) = [300, 300, 50]) := by
  refine ⟨?_, ?_, ?_, ?_, ?_, ?_⟩
  · intro hbs
    have hs : ∀ (L : List (List Stocks.StockOffer)),
        ((L.map (fun c => ({ skus := c.map (fun o =>
            ({ sku := o.offerId, items := [{ count := o.qua }] } : Stocks.SkuEntry)) }
          : Stocks.StockBatch))).flatMap (fun b => b.skus))
          = L.flatten.map (fun o =>
              ({ sku := o.offerId, items := [{ count := o.qua }] } : Stocks.SkuEntry)) := by
      intro L
      induction L with
      | nil => rfl
      | cons c L ih => simp [List.flatMap_cons, ih]
    unfold Stocks.prepareBatches
    rw [hs, chunksOf_flatten hbs]
  · intro b hb
    unfold Stocks.prepareBatches at hb
    simp only [List.mem_map] at hb
    obtain ⟨c, hc, rfl⟩ := hb
    simpa using chunksOf_le bs offers c hc
  · intro h650
    unfold Stocks.prepareBatches
    rw [List.map_map]
    have heq : ((fun (b : Stocks.StockBatch) => b.skus.length) ∘
        (fun c : List Stocks.StockOffer => ({ skus := c.map (fun o =>
            ({ sku := o.offerId, items := [{ count := o.qua }] } : Stocks.SkuEntry)) }
          : Stocks.StockBatch))) = List.length := by
      funext c
      simp
    rw [heq, chunksOf_map_length, h650]
    decide
  · intro hbs
    have hs : ∀ (L : List (List Prices.PriceOffer)),
        ((L.map (fun c => ({ offers := c.map (fun o =>
            ({ offerId := o.offerId
               price := { value := o.price, currencyId := "RUR",
                          discountBase := o.discountBase } } : Prices.PriceEntry)) }
          : Prices.PriceBatch))).flatMap (fun b => b.offers))
          = L.flatten.map (fun o =>
              ({ offerId := o.offerId
                 price := { value := o.price, currencyId := "RUR",
                            discountBase := o.discountBase } } : Prices.PriceEntry)) := by
      intro L
      induction L with
      | nil => rfl
      | cons c L ih => simp [List.flatMap_cons, ih]
    unfold Prices.prepareBatches
    rw [hs, chunksOf_flatten hbs]
  · intro b hb
    unfold Prices.prepareBatches at hb
    simp only [List.mem_map] at hb
    obtain ⟨c, hc, rfl⟩ := hb
    simpa using chunksOf_le bs poffers c hc
  · intro h650
    unfold Prices.prepareBatches
    rw [List.map_map]
    have heq : ((fun (b : Prices.PriceBatch) => b.offers.length) ∘
        (fun c : List Prices.PriceOffer => ({ offers := c.map (fun o =>
            ({ offerId := o.offerId
               price := { value := o.price, currencyId := "RUR",
                          discountBase := o.discountBase } } : Prices.PriceEntry)) }
          : Prices.PriceBatch))) = List.length := by
      funext c
      simp
    rw [heq, chunksOf_map_length, h650]
    decide

/-- Concrete instantiation of the C9 theorem: 650 identical stock offers
batched at size 300 give batches of sizes 300, 300 and 50. -/
theorem C9_prepare_batches_witness :
    (Stocks.prepareBatches
        (List.replicate 650 ({ offerId := "A", qua := 1 } : Stocks.StockOffer)) 300).map
      (fun b => b.skus.length) = [300, 300, 50] :=
  (C9_prepare_batches 300
      (List.replicate 650 ({ offerId := "A", qua := 1 } : Stocks.StockOffer)) []).2.2.1
    (List.length_replicate 650 _)

end YandexExchange

namespace YandexExchange

namespace Stocks

lemma buildOffers_ok : ∀ {rows : List Row},
    (∀ r ∈ rows, (quaOfRow r).isSome) →
    buildOffers rows = .ok (rows.map (fun r =>
      ({ offerId := skuOfRow r, qua := (quaOfRow r).getD 0 } : StockOffer))) := by
  intro rows
  induction rows with
  | nil => intro _; rfl
  | cons r rs ih =>
    intro h
    have hr := h r (by simp)
    unfold buildOffers
    cases hq : quaOfRow r with
    | none => rw [hq] at hr; simp at hr
    | some q =>
      rw [ih (fun x hx => h x (by simp [hx]))]
      simp [hq]

end Stocks

/-- C8: for every quantity spreadsheet containing both columns `Артикул`
and `Количество`, the stock pipeline's `prepare_offers_data` returns one
`{offerId, quantity}` record per row in order, the SKU coerced to text and
the quantity coerced to integer with a missing quantity cell yielding 0
(not a parse failure); when either required column is missing the
operation fails.  The concrete instance: one row with SKU `"A1"` and no
quantity cell yields the single record `{offerId := "A1", qua := 0}`. -/
theorem C8_stocks_prepare_offers_data (df : DataFrame) :
    (¬ ("Артикул" ∈ df.cols ∧ "Количество" ∈ df.cols) →
      Stocks.prepareOffersData df = .error "Файл не содержит нужных столбцов")
    ∧ ("Артикул" ∈ df.cols → "Количество" ∈ df.cols →
      (∀ r ∈ df.rows, (Stocks.quaOfRow r).isSome) →
      Stocks.prepareOffersData df = .ok (df.rows.map (fun r =>
        ({ offerId := Stocks.skuOfRow r, qua := (Stocks.quaOfRow r).getD 0 }
         : Stocks.StockOffer))))
    ∧ Stocks.prepareOffersData ⟨["Артикул", "Количество"], [[("Артикул", .strv "A1")]]⟩
        = .ok [{ offerId := "A1", qua := 0 }] := by
  refine ⟨?_, ?_, ?_⟩
  · intro h
    unfold Stocks.prepareOffersData
    rw [if_neg h]
  · intro h1 h2 hall
    unfold Stocks.prepareOffersData
    rw [if_pos ⟨h1, h2⟩]
    exact Stocks.buildOffers_ok hall
  · rfl

/-- Concrete instantiation of the C8 theorem at a two-row table whose
second row misses its quantity cell, discharging all hypotheses. -/
theorem C8_stocks_prepare_offers_data_witness :
    Stocks.prepareOffersData
        ⟨["Артикул", "Количество"],
         [[("Артикул", .strv "A1"), ("Количество", .intv 5)],
          [("Артикул", .strv "B2")]]⟩
      = .ok [{ offerId := "A1", qua := 5 }, { offerId := "B2", qua := 0 }] := by
  have h := (C8_stocks_prepare_offers_data
      ⟨["Артикул", "Количество"],
       [[("Артикул", .strv "A1"), ("Количество", .intv 5)],
        [("Артикул", .strv "B2")]]⟩).2.1
    (by simp) (by simp) (by decide)
  rw [h]
  rfl

end YandexExchange

namespace YandexExchange

/-! ## Confirmations pipeline (`confirmations.py`) -/

namespace Confirmations

/-- The order-key cell of a row, `row["HDRTAG2"]`. -/
def orderKey (r : Row) : Option CellVal := getCell r "HDRTAG2"

/-- `validate_dataframe(df)`: true iff the `HDRTAG2` column is present. -/
def validateDataframe (df : DataFrame) : Bool :=
  decide ("HDRTAG2" ∈ df.cols)

/-- The recursion behind `drop_duplicates(subset=["HDRTAG2"])`: keep a row
iff its key has not been seen before (pandas `keep='first'`). -/
def dedupRows (seen : List (Option CellVal)) : List Row → List Row
  | [] => []
  | r :: rs =>
    if orderKey r ∈ seen then dedupRows seen rs
    else r :: dedupRows (orderKey r :: seen) rs

/-- `extract_unique_orders(df)`: `drop_duplicates(subset=["HDRTAG2"])`;
pandas raises `KeyError` on a missing column, which the source catches and
converts to `None`. -/
def extractUniqueOrders (df : DataFrame) : Option DataFrame :=
  if "HDRTAG2" ∈ df.cols then
    some { cols := df.cols, rows := dedupRows [] df.rows }
  else none

/-- One element of the `orders` payload of the status-update request. -/
structure OrderStatusEntry where
  id : Int
  status : String
  substatus : String
deriving DecidableEq, Repr

/-- `build_order_payload(df, new_status, new_substatus)`: converts each
row's `HDRTAG2` to `int`, skipping (with a warning) rows whose key does
not parse; collects the payload entries and the ids in row order. -/
def buildOrderPayload (rows : List Row) (newStatus newSubstatus : String) :
    List OrderStatusEntry × List Int :=
  match rows with
  | [] => ([], [])
  | r :: rs =>
    let rest := buildOrderPayload rs newStatus newSubstatus
    match (orderKey r).bind CellVal.toIntOpt with
    | some n =>
      (({ id := n, status := newStatus, substatus := newSubstatus } : OrderStatusEntry)
          :: rest.1,
        n :: rest.2)
    | none => rest

/-- The response the environment produces for one HTTP attempt. -/
inductive NetResp where
  | status (code : ℕ)
  | netErr
  | otherErr
deriving DecidableEq, Repr

/-- The retry loop of `send_status_update_request`, `attempt` running from
1 to `max_retries`.  Result: (success flag, number of attempts actually
made, list of back-off sleeps `retry_delay * attempt` performed between
consecutive attempts).  The flag and the sleeps are observables of the
source; the attempt count instruments how many HTTP requests were issued.
The structural `fuel` argument starts at `max_retries` (enough for all
attempts); when the `for` loop has no iterations at all (`max_retries`
zero) the Python function falls through returning `None`, a failure. -/
def sendLoop (net : ℕ → NetResp) (maxRetries retryDelay : ℕ) :
    ℕ → ℕ → Bool × ℕ × List ℕ
  | attempt, 0 => (false, attempt - 1, [])
  | attempt, fuel + 1 =>
    match net attempt with
    | .status c =>
      if c = 200 then (true, attempt, [])
      else if c = 429 ∨ c = 500 ∨ c = 502 ∨ c = 503 ∨ c = 504 then
        if attempt < maxRetries then
          let r := sendLoop net maxRetries retryDelay (attempt + 1) fuel
          (r.1, r.2.1, retryDelay * attempt :: r.2.2)
        else (false, attempt, [])
      else (false, attempt, [])
    | .netErr =>
      if attempt < maxRetries then
        let r := sendLoop net maxRetries retryDelay (attempt + 1) fuel
        (r.1, r.2.1, retryDelay * attempt :: r.2.2)
      else (false, attempt, [])
    | .otherErr => (false, attempt, [])

/-- `send_status_update_request(payload, campaign_id, headers,
max_retries=3, retry_delay=3)`: POSTs and retries per the policy
(200 success; 429/500/502/503/504 and network errors retried with linear
back-off; anything else immediate failure). -/
def sendStatusUpdateRequest (net : ℕ → NetResp)
    (maxRetries : ℕ := 3) (retryDelay : ℕ := 3) : Bool × ℕ × List ℕ :=
  sendLoop net maxRetries retryDelay 1 maxRetries

/-- `update_order_statuses(df, campaign_id, headers, ...)`: validation →
dedup → payload build → send.  The second component instruments the number
of HTTP requests issued during the call. -/
def updateOrderStatuses (df : DataFrame) (net : ℕ → NetResp)
    (maxRetries : ℕ := 3) (retryDelay : ℕ := 3) : Option (List Int) × ℕ :=
  if validateDataframe df = false then (none, 0)
  else
    match extractUniqueOrders df with
    | none => (none, 0)
    | some uniqueDf =>
      let bp := buildOrderPayload uniqueDf.rows "PROCESSING" "READY_TO_SHIP"
      if bp.1.isEmpty then (some [], 0)
      else
        let r := sendStatusUpdateRequest net maxRetries retryDelay
        (if r.1 then some bp.2 else none, r.2.1)

end Confirmations

end YandexExchange

namespace YandexExchange

namespace Confirmations

/-- `append_data_from_file` after reading one spreadsheet: every absent
cell is filled with the sentinel text `"нет данных"` (`fillna`), so each
row carries an explicit value for every column of its file. -/
def appendDataFromFile (fileData : DataFrame) : DataFrame :=
  { cols := fileData.cols
    rows := fileData.rows.map (fun r =>
      fileData.cols.map (fun c => (c, (getCell r c).getD (.strv "нет данных")))) }

/-- `pd.concat(dfs, ignore_index=True)`: columns are united in order of
first appearance, rows concatenated. -/
def concatDFs (dfs : List DataFrame) : DataFrame :=
  { cols := (dfs.flatMap (fun d => d.cols)).eraseDups
    rows := dfs.flatMap (fun d => d.rows) }

/-- `process_confirmation_files(source_dir)`: loads each new (not yet
processed) `.xls` file and concatenates the per-file tables; when no new
file was found it returns the empty `pd.DataFrame()` — no rows and, in
particular, no columns.  The argument is the list of tables of the new
files in directory-walk order. -/
def processConfirmationFiles (newFiles : List DataFrame) : DataFrame :=
  let dfs := newFiles.map appendDataFromFile
  if dfs.isEmpty then { cols := [], rows := [] }
  else concatDFs dfs

/-- Accumulate one row's quantity into the group of its key tuple. -/
def addToGroups (key : List (Option CellVal)) (q : Int) :
    List (List (Option CellVal) × Int) → List (List (Option CellVal) × Int)
  | [] => [(key, q)]
  | (k, s) :: rest =>
    if k = key then (k, s + q) :: rest else (k, s) :: addToGroups key q rest

/-- The group-and-sum underlying `pivot_table(index=..., values=...,
aggfunc='sum')` (group order: first appearance; pandas sorts keys, which
none of the claims observe). -/
def groupSum (rows : List Row) (index : List String) (values : String) :
    List (List (Option CellVal) × Int) :=
  rows.foldl (fun acc r =>
    addToGroups (index.map (fun c => getCell r c))
      (((getCell r values).bind CellVal.toIntOpt).getD 0) acc) []

/-- `df.pivot_table(index=index, values=values, aggfunc='sum')`: raises
`KeyError` when any of the named columns is absent from the frame. -/
def pivotTable (df : DataFrame) (index : List String) (values : String) :
    Except String (List (List (Option CellVal) × Int)) :=
  if (∀ c ∈ index, c ∈ df.cols) ∧ values ∈ df.cols then
    .ok (groupSum df.rows index values)
  else .error "KeyError"

/-- Drop the given columns from a row (`df.drop(columns=...)`). -/
def dropCols (cs : List String) (r : Row) : Row :=
  r.filter (fun p => ¬ p.1 ∈ cs)

/-- The distinct order keys in first-appearance order
(`df['HDRTAG2'].unique()`). -/
def uniqueKeys (rows : List Row) : List (Option CellVal) :=
  (rows.map orderKey).eraseDups

/-- `df.groupby('HDRTAG2')` with the per-order-sheet column drops. -/
def groupByKey (rows : List Row) : List (Option CellVal × List Row) :=
  (uniqueKeys rows).map (fun k =>
    (k, (rows.filter (fun r => orderKey r = k)).map
          (dropCols ["PODRCD", "REFUSED", "CODEPST"])))

/-- The recap workbook: order list, item pivot, picking list, one sheet
per order. -/
structure Workbook where
  orderList : List (List (Option CellVal) × Int)
  pivot : List (List (Option CellVal) × Int)
  assembly : List (List (Option CellVal))
  orderSheets : List (Option CellVal × List Row)
deriving Repr

/-- `save_orders_to_excel(dataframe, output_path)`: builds the four sheet
classes in order; the first pivot (`index=['HDRTAG2', 'HDRTAG1']`,
`values='QNT'`) raises `KeyError` when those columns are absent, as do the
second pivot, the picking-list projection and the per-order group-by. -/
def saveOrdersToExcel (df : DataFrame) : Except String Workbook := do
  let allOrders ← pivotTable df ["HDRTAG2", "HDRTAG1"] "QNT"
  let pivot ← pivotTable df ["FIRM", "CODEART", "NAME", "GDATE"] "QNT"
  let assembly ←
    if ∀ c ∈ ["HDRTAG2", "FIRM", "CODEART", "NAME", "QNT"], c ∈ df.cols then
      Except.ok (df.rows.map (fun r =>
        ["HDRTAG2", "FIRM", "CODEART", "NAME", "QNT"].map (fun c => getCell r c)))
    else Except.error "KeyError"
  let orderSheets ←
    if "HDRTAG2" ∈ df.cols then Except.ok (groupByKey df.rows)
    else Except.error "KeyError"
  Except.ok { orderList := allOrders, pivot := pivot,
              assembly := assembly, orderSheets := orderSheets }

/-- Outcome of one run of the confirmations orchestrator. -/
inductive RunOutcome where
  | abortedAtRecap (err : String)
  | finished (wb : Workbook) (orderIds : List (Option CellVal))
      (statusResult : Option (List Int) × ℕ)
  | finishedNoStatus (wb : Workbook) (orderIds : List (Option CellVal))
deriving Repr

/-- `main()` of `confirmations.py` from the merge step on: merge the new
files, build the recap workbook (an exception there aborts the run before
the label step), collect the distinct order ids, then — only when the
merged table is non-empty — update the order statuses.  Label generation
is a pure network effect with no influence on the remaining control
flow. -/
def confirmationsMain (newFiles : List DataFrame) (net : ℕ → NetResp) : RunOutcome :=
  let df := processConfirmationFiles newFiles
  match saveOrdersToExcel df with
  | .error e => .abortedAtRecap e
  | .ok wb =>
    let orderIds := uniqueKeys df.rows
    if ¬ df.rows.isEmpty then .finished wb orderIds (updateOrderStatuses df net 3 3)
    else .finishedNoStatus wb orderIds

end Confirmations

end YandexExchange

namespace YandexExchange

namespace Confirmations

lemma dedupRows_sublist : ∀ (l : List Row) (seen), (dedupRows seen l).Sublist l := by
  intro l
  induction l with
  | nil => intro seen; simp [dedupRows]
  | cons r rs ih =>
    intro seen
    unfold dedupRows
    by_cases h : orderKey r ∈ seen
    · rw [if_pos h]
      exact (ih seen).cons r
    · rw [if_neg h]
      exact (ih _).cons₂ r

lemma dedupRows_key_not_seen : ∀ (l : List Row) (seen) (r : Row),
    r ∈ dedupRows seen l → orderKey r ∉ seen := by
  intro l
  induction l with
  | nil => intro seen r hr; simp [dedupRows] at hr
  | cons x xs ih =>
    intro seen r hr
    unfold dedupRows at hr
    by_cases h : orderKey x ∈ seen
    · rw [if_pos h] at hr
      exact ih seen r hr
    · rw [if_neg h] at hr
      rcases List.mem_cons.mp hr with rfl | hr2
      · exact h
      · have := ih _ r hr2
        intro hs
        exact this (List.mem_cons_of_mem _ hs)

lemma dedupRows_keys_nodup : ∀ (l : List Row) (seen),
    ((dedupRows seen l).map orderKey).Nodup := by
  intro l
  induction l with
  | nil => intro seen; simp [dedupRows]
  | cons x xs ih =>
    intro seen
    unfold dedupRows
    by_cases h : orderKey x ∈ seen
    · rw [if_pos h]
      exact ih seen
    · rw [if_neg h]
      simp only [List.map_cons, List.nodup_cons]
      refine ⟨?_, ih _⟩
      intro hmem
      rcases List.mem_map.mp hmem with ⟨r, hr, hkey⟩
      have := dedupRows_key_not_seen xs _ r hr
      exact this (by rw [hkey]; exact List.mem_cons_self _ _)

lemma dedupRows_complete : ∀ (l : List Row) (seen) (r : Row),
    r ∈ l → orderKey r ∉ seen → orderKey r ∈ (dedupRows seen l).map orderKey := by
  intro l
  induction l with
  | nil => intro seen r hr; simp at hr
  | cons x xs ih =>
    intro seen r hr hn
    unfold dedupRows
    by_cases h : orderKey x ∈ seen
    · rw [if_pos h]
      rcases List.mem_cons.mp hr with rfl | hr2
      · exact absurd h hn
      · exact ih seen r hr2 hn
    · rw [if_neg h]
      simp only [List.map_cons, List.mem_cons]
      by_cases hk : orderKey r = orderKey x
      · exact Or.inl hk
      · refine Or.inr ?_
        rcases List.mem_cons.mp hr with rfl | hr2
        · exact absurd rfl hk
        · apply ih _ r hr2
          intro hs
          rcases List.mem_cons.mp hs with he | hs2
          · exact hk he
          · exact hn hs2

lemma dedupRows_first : ∀ (l : List Row) (seen) (r : Row),
    r ∈ dedupRows seen l →
    l.find? (fun x => orderKey x = orderKey r) = some r := by
  intro l
  induction l with
  | nil => intro seen r hr; simp [dedupRows] at hr
  | cons x xs ih =>
    intro seen r hr
    unfold dedupRows at hr
    by_cases h : orderKey x ∈ seen
    · rw [if_pos h] at hr
      have hne : orderKey x ≠ orderKey r := by
        intro he
        exact dedupRows_key_not_seen xs seen r hr (he ▸ h)
      rw [List.find?_cons_of_neg _ (by simpa using hne)]
      exact ih seen r hr
    · rw [if_neg h] at hr
      rcases List.mem_cons.mp hr with rfl | hr2
      · rw [List.find?_cons_of_pos _ (by simp)]
      · have hnotin := dedupRows_key_not_seen xs _ r hr2
        have hne : orderKey x ≠ orderKey r := by
          intro he
          exact hnotin (by rw [← he]; exact List.mem_cons_self _ _)
        rw [List.find?_cons_of_neg _ (by simpa using hne)]
        exact ih _ r hr2

/-- C3: `extract_unique_orders` removes duplicate rows by the order-key
column `HDRTAG2`, keeping the first occurrence in its original order: the
result is a subsequence of the input whose keys are pairwise distinct,
every input key survives, and each surviving row is the first input row
bearing its key; the table with keys `[1001, 1001, 1002]` yields exactly
the first rows of keys 1001 and 1002. -/
theorem C3_extract_unique_orders (df out : DataFrame)
    (h : extractUniqueOrders df = some out) :
    out.rows.Sublist df.rows
    ∧ (out.rows.map orderKey).Nodup
    ∧ (∀ r ∈ df.rows, orderKey r ∈ out.rows.map orderKey)
    ∧ (∀ r ∈ out.rows, df.rows.find? (fun x => orderKey x = orderKey r) = some r)
    ∧ extractUniqueOrders
        ⟨["HDRTAG2", "QNT"],
         [[("HDRTAG2", .intv 1001), ("QNT", .intv 1)],
          [("HDRTAG2", .intv 1001), ("QNT", .intv 2)],
          [("HDRTAG2", .intv 1002), ("QNT", .intv 3)]]⟩ =
      some ⟨["HDRTAG2", "QNT"],
         [[("HDRTAG2", .intv 1001), ("QNT", .intv 1)],
          [("HDRTAG2", .intv 1002), ("QNT", .intv 3)]]⟩ := by
  have hout : out.rows = dedupRows [] df.rows := by
    unfold extractUniqueOrders at h
    by_cases hc : "HDRTAG2" ∈ df.cols
    · rw [if_pos hc] at h
      cases h
      rfl
    · rw [if_neg hc] at h
      cases h
  refine ⟨?_, ?_, ?_, ?_, by rfl⟩
  · rw [hout]; exact dedupRows_sublist df.rows []
  · rw [hout]; exact dedupRows_keys_nodup df.rows []
  · intro r hr
    rw [hout]
    exact dedupRows_complete df.rows [] r hr (by simp)
  · intro r hr
    rw [hout] at hr
    exact dedupRows_first df.rows [] r hr

/-- Concrete instantiation of the C3 theorem: the deduplicated table of
the `[1001, 1001, 1002]` example is a subsequence of the original with
pairwise distinct keys. -/
theorem C3_extract_unique_orders_witness :
    ([[("HDRTAG2", CellVal.intv 1001), ("QNT", CellVal.intv 1)],
      [("HDRTAG2", CellVal.intv 1002), ("QNT", CellVal.intv 3)]] : List Row).Sublist
      [[("HDRTAG2", CellVal.intv 1001), ("QNT", CellVal.intv 1)],
       [("HDRTAG2", CellVal.intv 1001), ("QNT", CellVal.intv 2)],
       [("HDRTAG2", CellVal.intv 1002), ("QNT", CellVal.intv 3)]] :=
  (C3_extract_unique_orders
      ⟨["HDRTAG2", "QNT"],
       [[("HDRTAG2", .intv 1001), ("QNT", .intv 1)],
        [("HDRTAG2", .intv 1001), ("QNT", .intv 2)],
        [("HDRTAG2", .intv 1002), ("QNT", .intv 3)]]⟩
      ⟨["HDRTAG2", "QNT"],
       [[("HDRTAG2", .intv 1001), ("QNT", .intv 1)],
        [("HDRTAG2", .intv 1002), ("QNT", .intv 3)]]⟩
      (by rfl)).1

end Confirmations

end YandexExchange

namespace YandexExchange

namespace Confirmations

/-- C5: with `max_retries = 3`, a status-update request answered 503 on
three consecutive attempts makes exactly 3 attempts (2 retries) separated
by sleeps of `retry_delay * 1` and `retry_delay * 2`, then fails; a 200
answer succeeds immediately on the first attempt, and a status outside
{200, 429, 500, 502, 503, 504} fails immediately without retry or sleep. -/
theorem C5_send_status_update_request (net : ℕ → NetResp) (d : ℕ) :
    ((∀ i, net i = .status 503) →
      sendStatusUpdateRequest net 3 d = (false, 3, [d * 1, d * 2]))
    ∧ (net 1 = .status 200 → sendStatusUpdateRequest net 3 d = (true, 1, []))
    ∧ (∀ c, net 1 = .status c → c ≠ 200 →
        ¬ (c = 429 ∨ c = 500 ∨ c = 502 ∨ c = 503 ∨ c = 504) →
        sendStatusUpdateRequest net 3 d = (false, 1, [])) := by
  refine ⟨?_, ?_, ?_⟩
  · intro h
    simp [sendStatusUpdateRequest, sendLoop, h 1, h 2, h 3]
  · intro h
    simp [sendStatusUpdateRequest, sendLoop, h]
  · intro c h hne hns
    simp [sendStatusUpdateRequest, sendLoop, h, hne, hns]

/-- Concrete instantiation of the C5 theorem: the constantly-503
environment with `retry_delay = 3` produces 3 attempts, sleeps `[3, 6]`
and failure. -/
theorem C5_send_status_update_request_witness :
    sendStatusUpdateRequest (fun _ => .status 503) 3 3 = (false, 3, [3 * 1, 3 * 2]) :=
  (C5_send_status_update_request (fun _ => .status 503) 3).1 (fun _ => rfl)

end Confirmations

end YandexExchange

namespace YandexExchange

namespace Confirmations

/-- C4: if the merged table lacks the column `HDRTAG2`,
`update_order_statuses` returns an absent result having issued no network
request; otherwise it returns an empty list when the deduplicated payload
is empty (again with no request), the list of order ids actually sent when
the send succeeds, and an absent result when the send fails. -/
theorem C4_update_order_statuses (df : DataFrame) (net : ℕ → NetResp) (mr rd : ℕ) :
    ("HDRTAG2" ∉ df.cols → updateOrderStatuses df net mr rd = (none, 0))
    ∧ ("HDRTAG2" ∈ df.cols →
        (buildOrderPayload (dedupRows [] df.rows) "PROCESSING" "READY_TO_SHIP").1 = [] →
        updateOrderStatuses df net mr rd = (some [], 0))
    ∧ ("HDRTAG2" ∈ df.cols →
        (buildOrderPayload (dedupRows [] df.rows) "PROCESSING" "READY_TO_SHIP").1 ≠ [] →
        (sendStatusUpdateRequest net mr rd).1 = true →
        updateOrderStatuses df net mr rd =
          (some (buildOrderPayload (dedupRows [] df.rows) "PROCESSING" "READY_TO_SHIP").2,
           (sendStatusUpdateRequest net mr rd).2.1))
    ∧ ("HDRTAG2" ∈ df.cols →
        (buildOrderPayload (dedupRows [] df.rows) "PROCESSING" "READY_TO_SHIP").1 ≠ [] →
        (sendStatusUpdateRequest net mr rd).1 = false →
        updateOrderStatuses df net mr rd =
          (none, (sendStatusUpdateRequest net mr rd).2.1)) := by
  refine ⟨?_, ?_, ?_, ?_⟩
  · intro h
    simp [updateOrderStatuses, validateDataframe, h]
  · intro hc hemp
    simp [updateOrderStatuses, validateDataframe, extractUniqueOrders, hc, hemp]
  · intro hc hne hsend
    simp [updateOrderStatuses, validateDataframe, extractUniqueOrders, hc, hne, hsend]
  · intro hc hne hsend
    simp [updateOrderStatuses, validateDataframe, extractUniqueOrders, hc, hne, hsend]

/-- Concrete instantiation of the C4 theorem: a table without `HDRTAG2`
yields an absent result and zero network requests. -/
theorem C4_update_order_statuses_witness :
    updateOrderStatuses ⟨["A"], []⟩ (fun _ => .status 200) 3 3 = (none, 0) :=
  (C4_update_order_statuses ⟨["A"], []⟩ (fun _ => .status 200) 3 3).1 (by decide)

end Confirmations

end YandexExchange

namespace YandexExchange

namespace Confirmations

/-- C10: a confirmations run that ingests no new files produces the empty
table with no columns, which the orchestrator nevertheless hands to
`save_orders_to_excel`; the first pivot's required columns `HDRTAG2`,
`HDRTAG1` and `QNT` are then absent, so the recap-building step raises and
the run aborts before the label-generation and status-update steps, for
every network environment. -/
theorem C10_empty_run_aborts_at_recap :
    processConfirmationFiles [] = ({ cols := [], rows := [] } : DataFrame)
    ∧ pivotTable ({ cols := [], rows := [] } : DataFrame) ["HDRTAG2", "HDRTAG1"] "QNT"
        = .error "KeyError"
    ∧ saveOrdersToExcel ({ cols := [], rows := [] } : DataFrame) = .error "KeyError"
    ∧ ∀ net : ℕ → NetResp, confirmationsMain [] net = .abortedAtRecap "KeyError" :=
  ⟨rfl, rfl, rfl, fun _ => rfl⟩

end Confirmations

end YandexExchange

namespace YandexExchange

/-! ## Orders export pipeline (`orders.py`) -/

namespace Orders

/-- One shipment object inside an order's delivery. -/
structure Shipment where
  shipmentDate : Option String
deriving DecidableEq, Repr

/-- The delivery object of an order. -/
structure Delivery where
  shipments : List Shipment
deriving DecidableEq, Repr

/-- One order line item (each field via `.get`, hence optional). -/
structure OrderItem where
  offerId : Option String
  offerName : Option String
  price : Option ℚ
  count : Option Int
deriving DecidableEq, Repr

/-- One raw marketplace order as fetched by `get_orders`; every field is
read with `.get` and may be absent. -/
structure Order where
  id : Option Int
  status : Option String
  substatus : Option String
  creationDate : Option String
  delivery : Option Delivery
  items : List OrderItem
deriving DecidableEq, Repr

/-- `order.get("delivery", {}).get("shipments", [])`. -/
def shipmentsOf (o : Order) : List Shipment :=
  (o.delivery.getD ⟨[]⟩).shipments

/-- One summary record produced by `extract_order_data`. -/
structure OrderSummary where
  order_id : Option Int
  status : Option String
  substatus : Option String
  creationDate : Option String
  shipmentDate : Option String
deriving DecidableEq, Repr

/-- `extract_order_data(orders)`: builds one summary per order; the
expression `...get("shipments", [])[0]` raises `IndexError` when the
shipments list is empty. -/
def extractOrderData : List Order → Except String (List OrderSummary)
  | [] => .ok []
  | o :: os =>
    match shipmentsOf o with
    | [] => .error "IndexError: list index out of range"
    | s :: _ =>
      match extractOrderData os with
      | .error e => .error e
      | .ok rest =>
        .ok (({ order_id := o.id, status := o.status, substatus := o.substatus,
                creationDate := o.creationDate, shipmentDate := s.shipmentDate }
              : OrderSummary) :: rest)

/-- The first shipment's date, if a shipment is present
(`shipment_data[0].get("shipmentDate") if shipment_data else None`). -/
def firstShipmentDate (o : Order) : Option String :=
  match shipmentsOf o with
  | [] => none
  | s :: _ => s.shipmentDate

end Orders

end YandexExchange

namespace YandexExchange

namespace Orders

lemma extractOrderData_ok : ∀ {orders : List Order},
    (∀ o ∈ orders, shipmentsOf o ≠ []) →
    extractOrderData orders = .ok (orders.map (fun o =>
      ({ order_id := o.id, status := o.status, substatus := o.substatus,
         creationDate := o.creationDate, shipmentDate := firstShipmentDate o }
       : OrderSummary))) := by
  intro orders
  induction orders with
  | nil => intro _; rfl
  | cons o os ih =>
    intro h
    have ho := h o (by simp)
    unfold extractOrderData
    cases hs : shipmentsOf o with
    | nil => exact absurd hs ho
    | cons s rest =>
      rw [ih (fun x hx => h x (by simp [hx]))]
      simp [firstShipmentDate, hs]

/-- C6 counterexample: on an order whose delivery carries no shipments,
`extract_order_data` does not succeed — the `[0]` access raises
`IndexError` — contradicting the claim that the operation is total. -/
theorem C6_extract_order_data_counterexample :
    extractOrderData
        [{ id := some 1, status := some "PROCESSING", substatus := some "STARTED",
           creationDate := some "01-01-2025 10:00:00", delivery := none, items := [] }]
      = .error "IndexError: list index out of range" := rfl

/-- C6 (amended): for every list of raw orders in which each order's
delivery carries at least one shipment, `extract_order_data` succeeds and
returns one record `{order_id, status, substatus, creationDate,
shipmentDate}` per order, `shipmentDate` being the first shipment's date;
on an order without shipments it raises `IndexError` instead of
succeeding. -/
theorem C6_extract_order_data (orders : List Order)
    (h : ∀ o ∈ orders, shipmentsOf o ≠ []) :
    extractOrderData orders = .ok (orders.map (fun o =>
      ({ order_id := o.id, status := o.status, substatus := o.substatus,
         creationDate := o.creationDate, shipmentDate := firstShipmentDate o }
       : OrderSummary))) :=
  extractOrderData_ok h

/-- Concrete instantiation of the amended C6 theorem at a one-order input
with one shipment. -/
theorem C6_extract_order_data_witness :
    extractOrderData
        [{ id := some 7, status := some "PROCESSING", substatus := some "STARTED",
           creationDate := some "01-01-2025 10:00:00",
           delivery := some ⟨[⟨some "02-01-2025"⟩]⟩, items := [] }]
      = .ok [{ order_id := some 7, status := some "PROCESSING",
               substatus := some "STARTED", creationDate := some "01-01-2025 10:00:00",
               shipmentDate := some "02-01-2025" }] := by
  rw [C6_extract_order_data _ (by decide)]
  rfl

end Orders

end YandexExchange

namespace YandexExchange

namespace Orders

/-- `datetime.strptime(s, "%d-%m-%Y").date()` (approximated: field count
and numeric-range checks; per-month day validity is not re-enforced).
Result `(day, month, year)`. -/
def parseDMY (s : String) : Option (ℕ × ℕ × ℕ) :=
  match s.splitOn "-" with
  | [d, m, y] =>
    match d.toNat?, m.toNat?, y.toNat? with
    | some dd, some mm, some yy =>
      if 1 ≤ dd ∧ dd ≤ 31 ∧ 1 ≤ mm ∧ mm ≤ 12 then some (dd, mm, yy) else none
    | _, _, _ => none
  | _ => none

/-- `datetime.strptime(s, "%d-%m-%Y %H:%M:%S").date()` (same
approximation). -/
def parseDateTime (s : String) : Option (ℕ × ℕ × ℕ) :=
  match s.splitOn " " with
  | [d, t] =>
    match t.splitOn ":" with
    | [h, mi, se] =>
      match h.toNat?, mi.toNat?, se.toNat? with
      | some hh, some mm2, some ss =>
        if hh ≤ 23 ∧ mm2 ≤ 59 ∧ ss ≤ 61 then parseDMY d else none
      | _, _, _ => none
    | _ => none
  | _ => none

/-- `str(order_id)`, where a missing id prints as Python `None`. -/
def orderIdText (o : Order) : String :=
  match o.id with
  | some n => toString n
  | none => "None"

/-- One appended record of the dBASE table (schema of
`export_orders_to_dbf_files`). -/
structure TableRow where
  offer_id : String
  name : String
  price : ℚ
  qty : Int
  post_num : String
  ord_date : Option (ℕ × ℕ × ℕ)
  ship_date : Option (ℕ × ℕ × ℕ)
  commentText : String
  cust_id : String
  div_id : String
deriving DecidableEq, Repr

/-- The rows written into one order's table file. -/
def tableRows (custId divId : String) (o : Order) : List TableRow :=
  let orderDate := o.creationDate.bind parseDateTime
  let shipDate := (firstShipmentDate o).bind parseDMY
  o.items.map (fun it =>
    { offer_id := it.offerId.getD ""
      name := it.offerName.getD ""
      price := it.price.getD 0
      qty := it.count.getD 0
      post_num := orderIdText o
      ord_date := orderDate
      ship_date := shipDate
      commentText := orderIdText o ++ " Заказ YANDEX Frenchpharmacy"
      cust_id := custId
      div_id := divId })

/-- The local output directory as a map from file name to table content. -/
abbrev FS := List (String × List TableRow)

/-- The file names present in the directory. -/
def keys (fs : FS) : List String := fs.map Prod.fst

/-- `os.path.exists(filename)`. -/
def fsHasFile (fs : FS) (name : String) : Bool :=
  fs.any (fun p => p.1 = name)

/-- Number of directory entries bearing a name (0 or 1 throughout). -/
def countFile (fs : FS) (name : String) : ℕ :=
  (fs.filter (fun p => p.1 = name)).length

/-- One iteration of the export loop: an order with no items is skipped
(`continue`); an order whose file `<order id>.dbf` already exists is
skipped; otherwise the table is created, filled and the file uploaded to
FTP (recorded in the upload list). -/
def exportStep (custId divId : String) (acc : FS × List String) (o : Order) :
    FS × List String :=
  if o.items.isEmpty then acc
  else
    let filename := orderIdText o ++ ".dbf"
    if fsHasFile acc.1 filename then acc
    else ((filename, tableRows custId divId o) :: acc.1, acc.2 ++ [filename])

/-- `export_orders_to_dbf_files(orders, output_dir)`: iterates the orders
over the given starting directory state; returns the final directory state
and the list of files uploaded during the run, in upload order. -/
def exportOrdersToDbfFiles (orders : List Order) (custId divId : String) (fs : FS) :
    FS × List String :=
  orders.foldl (exportStep custId divId) (fs, [])

end Orders

end YandexExchange

namespace YandexExchange

namespace Orders

lemma fsHasFile_iff (fs : FS) (f : String) : fsHasFile fs f = true ↔ f ∈ keys fs := by
  simp [fsHasFile, keys, List.any_eq_true, List.mem_map]

lemma exportStep_preserve (c d : String) (o : Order) (acc : FS × List String)
    (f : String) (hf : f ∈ keys acc.1) :
    (exportStep c d acc o).1.lookup f = acc.1.lookup f
    ∧ countFile (exportStep c d acc o).1 f = countFile acc.1 f
    ∧ (f ∈ (exportStep c d acc o).2 ↔ f ∈ acc.2)
    ∧ f ∈ keys (exportStep c d acc o).1 := by
  unfold exportStep
  by_cases h1 : o.items.isEmpty
  · rw [if_pos h1]
    exact ⟨rfl, rfl, Iff.rfl, hf⟩
  · rw [if_neg h1]
    by_cases h2 : fsHasFile acc.1 (orderIdText o ++ ".dbf")
    · rw [if_pos h2]
      exact ⟨rfl, rfl, Iff.rfl, hf⟩
    · rw [if_neg h2]
      have hne : (orderIdText o ++ ".dbf") ≠ f := by
        intro he
        exact h2 ((fsHasFile_iff acc.1 _).mpr (he ▸ hf))
      refine ⟨?_, ?_, ?_, ?_⟩
      · have hb : (f == orderIdText o ++ ".dbf") = false :=
          beq_eq_false_iff_ne.mpr (Ne.symm hne)
        simp [List.lookup, hb]
      · simp [countFile, List.filter_cons, hne]
      · simp [List.mem_append, (Ne.symm hne)]
      · simp only [keys, List.map_cons, List.mem_cons]
        exact Or.inr hf

lemma export_foldl_preserve (c d : String) :
    ∀ (orders : List Order) (acc : FS × List String) (f : String),
    f ∈ keys acc.1 →
    (orders.foldl (exportStep c d) acc).1.lookup f = acc.1.lookup f
    ∧ countFile (orders.foldl (exportStep c d) acc).1 f = countFile acc.1 f
    ∧ (f ∈ (orders.foldl (exportStep c d) acc).2 ↔ f ∈ acc.2)
    ∧ f ∈ keys (orders.foldl (exportStep c d) acc).1 := by
  intro orders
  induction orders with
  | nil => intro acc f hf; exact ⟨rfl, rfl, Iff.rfl, hf⟩
  | cons o os ih =>
    intro acc f hf
    rw [List.foldl_cons]
    have h0 := exportStep_preserve c d o acc f hf
    have h1 := ih (exportStep c d acc o) f h0.2.2.2
    exact ⟨h1.1.trans h0.1, h1.2.1.trans h0.2.1, h1.2.2.1.trans h0.2.2.1, h1.2.2.2⟩

lemma export_covers (c d : String) :
    ∀ (orders : List Order) (acc : FS × List String) (o : Order),
    o ∈ orders → o.items.isEmpty = false →
    (orderIdText o ++ ".dbf") ∈ keys (orders.foldl (exportStep c d) acc).1 := by
  intro orders
  induction orders with
  | nil => intro acc o ho; simp at ho
  | cons x xs ih =>
    intro acc o ho hne
    rw [List.foldl_cons]
    rcases List.mem_cons.mp ho with rfl | ho2
    · have hin : (orderIdText o ++ ".dbf") ∈ keys (exportStep c d acc o).1 := by
        unfold exportStep
        rw [if_neg (by simp [hne])]
        by_cases h2 : fsHasFile acc.1 (orderIdText o ++ ".dbf")
        · rw [if_pos h2]
          exact (fsHasFile_iff acc.1 _).mp h2
        · rw [if_neg h2]
          simp [keys]
      exact (export_foldl_preserve c d xs (exportStep c d acc o) _ hin).2.2.2
    · exact ih (exportStep c d acc x) o ho2 hne

lemma export_noop (c d : String) :
    ∀ (orders : List Order) (acc : FS × List String),
    (∀ o ∈ orders, o.items.isEmpty = false → (orderIdText o ++ ".dbf") ∈ keys acc.1) →
    orders.foldl (exportStep c d) acc = acc := by
  intro orders
  induction orders with
  | nil => intro acc _; rfl
  | cons x xs ih =>
    intro acc h
    have hstep : exportStep c d acc x = acc := by
      unfold exportStep
      by_cases h1 : x.items.isEmpty
      · rw [if_pos h1]
      · rw [if_neg h1]
        rw [if_pos ((fsHasFile_iff acc.1 _).mpr
          (h x (List.mem_cons_self x xs) (Bool.not_eq_true _ ▸ by simpa using h1)))]
    rw [List.foldl_cons, hstep]
    exact ih acc (fun o ho => h o (List.mem_cons_of_mem x ho))

end Orders

end YandexExchange

namespace YandexExchange

namespace Orders

/-- C7: `export_orders_to_dbf_files` is idempotent per order id: a file
`<order id>.dbf` already present in the output directory is neither
overwritten nor duplicated and is never uploaded during the run, and
running the export a second time over the same orders changes nothing and
uploads nothing. -/
theorem C7_export_orders_idempotent (orders : List Order) (custId divId : String)
    (fs0 : FS) :
    (∀ f ∈ keys fs0,
      (exportOrdersToDbfFiles orders custId divId fs0).1.lookup f = fs0.lookup f
      ∧ countFile (exportOrdersToDbfFiles orders custId divId fs0).1 f = countFile fs0 f
      ∧ f ∉ (exportOrdersToDbfFiles orders custId divId fs0).2)
    ∧ exportOrdersToDbfFiles orders custId divId
        (exportOrdersToDbfFiles orders custId divId fs0).1
        = ((exportOrdersToDbfFiles orders custId divId fs0).1, []) := by
  constructor
  · intro f hf
    have h := export_foldl_preserve custId divId orders (fs0, []) f hf
    refine ⟨h.1, h.2.1, ?_⟩
    intro hmem
    simpa using h.2.2.1.mp hmem
  · apply export_noop
    intro o ho hne
    exact export_covers custId divId orders (fs0, []) o ho hne

/-- Concrete instantiation of the C7 theorem: an order whose file already
exists leaves the directory entry intact and uploads nothing. -/
theorem C7_export_orders_idempotent_witness :
    (exportOrdersToDbfFiles
        [{ id := some 1, status := none, substatus := none, creationDate := none,
           delivery := none,
           items := [{ offerId := some "S", offerName := some "N",
                       price := some 10, count := some 2 }] }]
        "c" "d" [("1.dbf", [])]).1.lookup "1.dbf" = ([("1.dbf", [])] : FS).lookup "1.dbf"
    ∧ countFile (exportOrdersToDbfFiles
        [{ id := some 1, status := none, substatus := none, creationDate := none,
           delivery := none,
           items := [{ offerId := some "S", offerName := some "N",
                       price := some 10, count := some 2 }] }]
        "c" "d" [("1.dbf", [])]).1 "1.dbf" = countFile [("1.dbf", [])] "1.dbf"
    ∧ "1.dbf" ∉ (exportOrdersToDbfFiles
        [{ id := some 1, status := none, substatus := none, creationDate := none,
           delivery := none,
           items := [{ offerId := some "S", offerName := some "N",
                       price := some 10, count := some 2 }] }]
        "c" "d" [("1.dbf", [])]).2 :=
  (C7_export_orders_idempotent
      [{ id := some 1, status := none, substatus := none, creationDate := none,
         delivery := none,
         items := [{ offerId := some "S", offerName := some "N",
                     price := some 10, count := some 2 }] }]
      "c" "d" [("1.dbf", [])]).1 "1.dbf" (by simp [keys])

end Orders

end YandexExchange
